import Mathlib

/-!
Verification of the candidate–job matching engine of the internal-movement
portal (backend/app/services/match_service.py,
backend/app/services/semantic_match_service.py,
backend/app/services/admin_service.py and the `/jobs/{id}/match` and
`/admin/retrain-matching-model` routes).

The Python services are shallowly embedded: pure string/arithmetic helpers
become Lean functions over `String` and `ℚ`; the database session becomes an
explicit `DBState` record threaded through the operations; the
TF-IDF + truncated-SVD similarity pipeline (floating point, scikit-learn) is
abstracted as an explicit oracle argument `fit` giving each eligible candidate
a similarity value, or `none` when the vectorizer raises — everything the
services do *around* that pipeline (eligibility filtering, thresholding,
rounding, sorting, delete-then-insert persistence) is embedded faithfully.
Python float literals (0.05, 0.8, …) are idealized as the corresponding
rationals.
-/

/-- Python `str.lower()` restricted to per-character lowering (profile text in
this repository is ASCII). -/
def pyLower (s : String) : String := String.mk (s.data.map Char.toLower)

/-- Python `str.strip()`: drop leading and trailing whitespace. -/
def pyStrip (s : String) : String :=
  String.mk (((s.data.dropWhile Char.isWhitespace).reverse.dropWhile Char.isWhitespace).reverse)

/-- One step of `re.sub(r"\s+", " ", ·)`: every maximal whitespace run becomes
a single space. -/
def collapseWhitespace : List Char → List Char
  | [] => []
  | [c] => if c.isWhitespace then [' '] else [c]
  | c :: d :: rest =>
    if c.isWhitespace && d.isWhitespace then collapseWhitespace (d :: rest)
    else (if c.isWhitespace then ' ' else c) :: collapseWhitespace (d :: rest)

/-- Character class `[\w\s\-\+\#\./]` of `semantic_match_service._preprocess_text`. -/
def semanticChar (c : Char) : Bool :=
  c.isAlphanum || c = '_' || c.isWhitespace || c = '-' || c = '+' || c = '#' || c = '.' || c = '/'

/-- `re.sub(r"[^\w\s\-\+\#\./]", " ", ·)`: each disallowed character becomes a
space. -/
def blankDisallowed (cs : List Char) : List Char :=
  cs.map (fun c => if semanticChar c then c else ' ')

/-- `PureSemanticMatchService._preprocess_text`: lowercase, strip, collapse
whitespace runs, blank out non-semantic characters, strip again. -/
def preprocess_text (text : String) : String :=
  if text = "" then ""
  else
    let t1 := pyStrip (pyLower text)
    let t2 := String.mk (collapseWhitespace t1.data)
    let t3 := String.mk (blankDisallowed t2.data)
    pyStrip t3

/-- Helper for `pySplit`: accumulate the current word (reversed) while walking
the character list. -/
def pySplitAux : List Char → List Char → List String
  | [], acc => if acc = [] then [] else [String.mk acc.reverse]
  | c :: cs, acc =>
    if c.isWhitespace then
      if acc = [] then pySplitAux cs [] else String.mk acc.reverse :: pySplitAux cs []
    else pySplitAux cs (c :: acc)

/-- Python `str.split()` with no argument: split on whitespace runs, no empty
words. -/
def pySplit (s : String) : List String := pySplitAux s.data []

/-- `needle in haystack` on strings (Python substring containment), over the
character lists. -/
def headAgrees : List Char → List Char → Bool
  | [], _ => true
  | _ :: _, [] => false
  | a :: as, b :: bs => a = b && headAgrees as bs

/-- Substring containment: does `needle` occur contiguously in `hay`? -/
def strContains (hay needle : String) : Bool :=
  go hay.data
where
  go : List Char → Bool
    | [] => headAgrees needle.data []
    | c :: cs => headAgrees needle.data (c :: cs) || go cs

/-- Round half to even at integer precision, Python's `round` on an exact
value. -/
def halfEvenRound (q : ℚ) : ℤ :=
  if q - (⌊q⌋ : ℚ) < 1/2 then ⌊q⌋
  else if 1/2 < q - (⌊q⌋ : ℚ) then ⌊q⌋ + 1
  else if ⌊q⌋ % 2 = 0 then ⌊q⌋ else ⌊q⌋ + 1

/-- Python `round(x, 1)`: one decimal digit, half to even. -/
def pyRound1 (q : ℚ) : ℚ := (halfEvenRound (q * 10) : ℚ) / 10

/-- Python `int(x)`: truncation toward zero. -/
def pyIntTrunc (q : ℚ) : ℤ :=
  if 0 ≤ q then Int.floor q else -(Int.floor (-q))

/-- A job row as the matching services read it.  The ORM model
(`app/models/job.py`) has `title`, `team`, `description`, `required_skills`,
`optional_skills`, `min_years_experience`, `preferred_certifications` and
`status`; `short_description` is a deprecated column that
`setup_complete_system.py` drops and the ORM model no longer declares, read
defensively here as an optional field (the spec notes the source treats
missing profile attributes as empty defaults). -/
structure Job where
  id : String
  title : String
  team : String
  description : String
  short_description : Option String := none
  required_skills : List String := []
  optional_skills : List String := []
  min_years_experience : Option ℤ := some 0
  preferred_certifications : List String := []
  status : String := "open"
deriving DecidableEq, Repr

/-- An employee row as the matching services read it (`app/models/employee.py`).
The live model stores `months_experience`; `years_experience` was dropped by
migration 002 yet is still read by `MatchService._calculate_experience_match`
(`employee.years_experience or 0`), so it is kept as an optional field that is
`none` on current data. -/
structure Employee where
  id : String
  name : String
  role : String := "employee"
  technical_skills : List String := []
  achievements : List String := []
  months_experience : ℤ := 0
  years_experience : Option ℤ := none
  past_companies : List String := []
  certifications : List String := []
  education : List String := []
  career_aspirations : Option String := none
  current_job_title : Option String := none
  visibility_opt_out : Bool := false
deriving DecidableEq, Repr

/-- A persisted `job_matches` row (`app/models/job.py`, class `JobMatch`).
`score` is an `Integer` column; `shortlisted` defaults to `False`. -/
structure MatchRow where
  job_id : String
  employee_id : String
  score : ℤ
  skills_match : List String := []
  method : String := "semantic"
  shortlisted : Bool := false
deriving DecidableEq, Repr

/-- The database state the matching engine touches: the jobs and employees
tables (read-only to the engine) and the job_matches table (read/write). -/
structure DBState where
  jobs : List Job
  employees : List Employee
  job_matches : List MatchRow
deriving DecidableEq, Repr

/-! ## Rule-based scorer (`MatchService`, backend/app/services/match_service.py)

`MatchService._normalize_skills` produces a Python `set`; sets are modelled as
duplicate-free lists (`List.dedup`), with the set's (arbitrary) iteration
order fixed to the underlying list order.  All quantities the scorer computes
from those sets (cardinalities, sums of per-element maxima) are independent of
that order. -/

/-- `MatchService._normalize_skills`: lowercase+strip each non-blank skill and
collect them into a set. -/
def normalize_skills (skills : List String) : List String :=
  ((skills.filter (fun s => pyStrip s ≠ "")).map (fun s => pyStrip (pyLower s))).dedup

/-- `len(a ∩ b)` for a duplicate-free list `a`. -/
def interCount (a b : List String) : ℕ := (a.filter (fun s => b.contains s)).length

/-- `len(a ∪ b)` for lists standing for sets. -/
def unionCount (a b : List String) : ℕ := ((a ++ b).dedup).length

/-- `MatchService._calculate_skills_match`: exact-match fraction, full score
when no skills are required. -/
def calc_skills_match (job_skills emp_skills : List String) : ℚ :=
  if job_skills = [] then 1
  else (interCount job_skills emp_skills : ℚ) / job_skills.length

/-- `MatchService.skill_synonyms`, the fixed synonym table. -/
def skill_synonyms : List (String × List String) :=
  [("javascript", ["js", "node.js", "nodejs", "react", "vue", "angular"]),
   ("python", ["django", "flask", "fastapi", "pytorch", "tensorflow"]),
   ("java", ["spring", "spring boot", "hibernate", "maven", "gradle"]),
   ("aws", ["amazon web services", "ec2", "s3", "lambda", "cloud"]),
   ("kubernetes", ["k8s", "docker", "containerization", "orchestration"]),
   ("sql", ["database", "postgresql", "mysql", "mongodb", "nosql"]),
   ("devops", ["ci/cd", "jenkins", "deployment", "automation"]),
   ("machine learning", ["ml", "ai", "data science", "analytics"]),
   ("react", ["reactjs", "frontend", "ui", "javascript"]),
   ("angular", ["typescript", "frontend", "spa"])]

/-- Membership of a skill in a synonym group (base skill or listed synonym). -/
def inSynGroup (s : String) (g : String × List String) : Bool :=
  s == g.1 || g.2.contains s

/-- `MatchService._calculate_skill_similarity`: 0.8 for synonym-table
co-membership, 0.6 for substring containment, else Jaccard word overlap × 0.4
(0 when either word set is empty). -/
def calc_skill_similarity (sk1 sk2 : String) : ℚ :=
  let s1 := pyLower sk1
  let s2 := pyLower sk2
  if skill_synonyms.any (fun g => inSynGroup s1 g && inSynGroup s2 g) then 4/5
  else if strContains s2 s1 || strContains s1 s2 then 3/5
  else
    let w1 := (pySplit s1).dedup
    let w2 := (pySplit s2).dedup
    if w1 ≠ [] && w2 ≠ [] then
      (interCount w1 w2 : ℚ) / (unionCount w1 w2 : ℚ) * (2/5)
    else 0

/-- Best pairwise similarity of one job skill against all candidate skills,
starting from 0.0 as in the Python loop. -/
def bestSimilarity (js : String) (emp_skills : List String) : ℚ :=
  emp_skills.foldl (fun m es => max m (calc_skill_similarity js es)) 0

/-- `MatchService._calculate_similar_skills_match`: average over required
skills not matched exactly of the best similarity to any candidate skill
(skills matched exactly contribute 0 to the sum). -/
def calc_similar_skills_match (job_skills emp_skills : List String) : ℚ :=
  if job_skills = [] then 0
  else
    (((job_skills.filter (fun s => !emp_skills.contains s)).map
        (fun s => bestSimilarity s emp_skills)).sum) / job_skills.length

/-- `MatchService._calculate_experience_match`.  `job.min_years_experience or
0` and `employee.years_experience or 0` map both a missing value and 0 to 0. -/
def calc_experience_match (job : Job) (emp : Employee) : ℚ :=
  let minReq : ℤ := job.min_years_experience.getD 0
  let expY : ℤ := emp.years_experience.getD 0
  if minReq = 0 then 1
  else if minReq ≤ expY then
    let bonus : ℚ := min (((expY - minReq : ℤ) : ℚ) * (1/10)) (3/10)
    min (1 + bonus) 1
  else
    max 0 (1 - ((minReq - expY : ℤ) : ℚ) * (1/5))

/-- `MatchService._calculate_career_alignment`: 0.5 with no aspiration text,
else 0.6 for any title-word overlap plus 0.4 × the fraction of required
skills mentioned (as substrings) in the aspiration text, capped at 1. -/
def calc_career_alignment (job : Job) (emp : Employee) : ℚ :=
  match emp.career_aspirations with
  | none => 1/2
  | some asp0 =>
    if asp0 = "" then 1/2
    else
      let asp := pyLower asp0
      let title := pyLower job.title
      let jobSkills := normalize_skills job.required_skills
      let titleWords := (pySplit title).dedup
      let aspWords := (pySplit asp).dedup
      let base : ℚ := if 0 < interCount titleWords aspWords then 3/5 else 0
      let score :=
        if jobSkills = [] then base
        else base +
          ((jobSkills.filter (fun s => strContains asp s)).length : ℚ)
            / jobSkills.length * (2/5)
      min score 1

/-- The fixed keyword list of `MatchService._calculate_education_relevance`. -/
def tech_keywords : List String :=
  ["computer", "software", "engineering", "science", "technology", "data"]

/-- `MatchService._calculate_education_relevance`: 0.2 per technology keyword
and 0.1 per required skill occurring in the joined education text, capped at
1; 0 with no education entries. -/
def calc_education_relevance (job : Job) (emp : Employee) : ℚ :=
  if emp.education = [] then 0
  else
    let eduText := pyLower (String.intercalate " " emp.education)
    let jobSkills := normalize_skills job.required_skills
    let kw : ℚ := ((tech_keywords.filter (fun k => strContains eduText k)).length : ℚ) * (1/5)
    let sk : ℚ := ((jobSkills.filter (fun s => strContains eduText s)).length : ℚ) * (1/10)
    min (kw + sk) 1

/-- `MatchService._calculate_certification_match`: 0 with no certifications,
0.3 when the job lists no preferred certifications, else the matched fraction
(capped at 1) or a 0.1 floor when nothing matches. -/
def calc_certification_match (job : Job) (emp : Employee) : ℚ :=
  if emp.certifications = [] then 0
  else if job.preferred_certifications = [] then 3/10
  else
    let certText := pyLower (String.intercalate " " emp.certifications)
    let m := (job.preferred_certifications.filter
      (fun p => strContains certText (pyLower p))).length
    if 0 < m then min ((m : ℚ) / job.preferred_certifications.length) 1
    else 1/10

/-- `MatchService._calculate_industry_standard_score`: the weighted sum of the
seven feature scores (weights 30/15/10/20/15/5/5), capped at 100. -/
def calculate_industry_standard_score (job : Job) (emp : Employee) : ℚ :=
  let jobReq := normalize_skills job.required_skills
  let jobOpt := normalize_skills job.optional_skills
  let empSkills := normalize_skills emp.technical_skills
  let total :=
    calc_skills_match jobReq empSkills * 30
    + calc_similar_skills_match jobReq empSkills * 15
    + calc_skills_match jobOpt empSkills * 10
    + calc_experience_match job emp * 20
    + calc_career_alignment job emp * 15
    + calc_education_relevance job emp * 5
    + calc_certification_match job emp * 5
  min total 100

/-- `MatchService._get_matching_skills`: exactly matched required skills plus
"X (similar to Y)" entries for the first candidate skill with similarity
above 0.6, in the canonical set order. -/
def get_matching_skills (job : Job) (emp : Employee) : List String :=
  let jobSkills := normalize_skills job.required_skills
  let empSkills := normalize_skills emp.technical_skills
  let exact := jobSkills.filter (fun s => empSkills.contains s)
  let similar := (jobSkills.filter (fun s => !exact.contains s)).filterMap (fun js =>
    (empSkills.find? (fun es => (3/5 : ℚ) < calc_skill_similarity js es)).map
      (fun es => es ++ " (similar to " ++ js ++ ")"))
  exact ++ similar

/-- A match dict as built in `MatchService.calculate_matches_for_job`:
`{"employee_id", "score": round(score, 1), "skills_match"}`. -/
structure RuleMatch where
  employee_id : String
  score : ℚ
  skills_match : List String
deriving DecidableEq, Repr

/-- Stable insertion (descending by `key`): the new element goes in front of
the first element whose key is not larger.  Python's `list.sort(key=...,
reverse=True)` is stable, and a stable descending sort is uniquely determined
by the key order plus input order, so this insertion sort computes the same
list as the source's Timsort. -/
def insertScoredDesc {α : Type} (key : α → ℚ) (x : α) : List α → List α
  | [] => [x]
  | y :: ys => if key y ≤ key x then x :: y :: ys else y :: insertScoredDesc key x ys

/-- Stable sort, descending by `key`. -/
def sortScoredDesc {α : Type} (key : α → ℚ) : List α → List α
  | [] => []
  | x :: xs => insertScoredDesc key x (sortScoredDesc key xs)

/-- The eligibility query of `MatchService.calculate_matches_for_job`:
`role == "employee"` and not opted out, in database order. -/
def ruleEligible (st : DBState) : List Employee :=
  st.employees.filter (fun e => e.role == "employee" && e.visibility_opt_out == false)

/-- `MatchService._store_matches`: delete all rows for the job, then insert
one integer-scored row per match; `JobMatch.shortlisted` is not passed and so
takes its column default `False`. -/
def store_rule_matches (st : DBState) (job_id : String) (ms : List RuleMatch) : DBState :=
  { st with job_matches :=
      st.job_matches.filter (fun r => r.job_id ≠ job_id)
      ++ ms.map (fun m =>
        { job_id := job_id, employee_id := m.employee_id,
          score := pyIntTrunc m.score, skills_match := m.skills_match,
          method := "industry_standard", shortlisted := false }) }

/-- The match dict built for one qualifying employee in
`MatchService.calculate_matches_for_job`. -/
def ruleRow (job : Job) (e : Employee) : RuleMatch :=
  ⟨e.id, pyRound1 (calculate_industry_standard_score job e), get_matching_skills job e⟩

/-- The per-employee loop of `MatchService.calculate_matches_for_job`: score
each employee and keep those with score ≥ 20.0. -/
def ruleRows (job : Job) (emps : List Employee) : List RuleMatch :=
  emps.filterMap (fun e =>
    if (20 : ℚ) ≤ calculate_industry_standard_score job e then some (ruleRow job e)
    else none)

/-- `MatchService.calculate_matches_for_job`: look the job up (silently
returning an empty list with no store when absent), score every eligible
employee, keep scores ≥ 20.0, sort descending by rounded score, store. -/
def calculate_matches_for_job (st : DBState) (job_id : String) :
    List RuleMatch × DBState :=
  match st.jobs.find? (fun j => j.id == job_id) with
  | none => ([], st)
  | some job =>
    (sortScoredDesc (fun m => m.score) (ruleRows job (ruleEligible st)),
     store_rule_matches st job_id
       (sortScoredDesc (fun m => m.score) (ruleRows job (ruleEligible st))))

/-! ## Semantic scorer (`PureSemanticMatchService`,
backend/app/services/semantic_match_service.py)

The TF-IDF + truncated-SVD fit (scikit-learn, floating point) is abstracted
as an oracle `SemOracle` mapping the job and the eligible employee list to
`some` similarity per employee, or `none` when `fit_transform` raises.  With
`random_state=42` the pipeline is a deterministic function of its inputs,
which is exactly what passing one fixed oracle captures. -/

/-- Python truthiness of an optional string field. -/
def truthyOpt (o : Option String) : Bool := o.any (fun s => s ≠ "")

/-- `PureSemanticMatchService._extract_job_semantic_content`: preprocess and
join title, description, short description, required skills, optional skills
and team, skipping falsy fields. -/
def extract_job_semantic_content (job : Job) : String :=
  let parts :=
    (if job.title ≠ "" then [preprocess_text job.title] else [])
    ++ (if job.description ≠ "" then [preprocess_text job.description] else [])
    ++ (match job.short_description with
        | some sd => if sd ≠ "" then [preprocess_text sd] else []
        | none => [])
    ++ (if job.required_skills ≠ [] then
          [preprocess_text (String.intercalate " " job.required_skills)] else [])
    ++ (if job.optional_skills ≠ [] then
          [preprocess_text (String.intercalate " " job.optional_skills)] else [])
    ++ (if job.team ≠ "" then [preprocess_text job.team] else [])
  String.intercalate " " parts

/-- `PureSemanticMatchService._extract_employee_semantic_content`: preprocess
and join current title, aspirations, technical skills, education,
certifications, past companies and achievements, skipping falsy fields. -/
def extract_employee_semantic_content (emp : Employee) : String :=
  let parts :=
    (match emp.current_job_title with
     | some t => if t ≠ "" then [preprocess_text t] else []
     | none => [])
    ++ (match emp.career_aspirations with
        | some a => if a ≠ "" then [preprocess_text a] else []
        | none => [])
    ++ (if emp.technical_skills ≠ [] then
          [preprocess_text (String.intercalate " " emp.technical_skills)] else [])
    ++ (if emp.education ≠ [] then
          [preprocess_text (String.intercalate ", " emp.education)] else [])
    ++ (if emp.certifications ≠ [] then
          [preprocess_text (String.intercalate ", " emp.certifications)] else [])
    ++ (if emp.past_companies ≠ [] then
          [preprocess_text (String.intercalate ", " emp.past_companies)] else [])
    ++ (if emp.achievements ≠ [] then
          [preprocess_text (String.intercalate ", " emp.achievements)] else [])
  String.intercalate " " parts

/-- A match dict as built in
`PureSemanticMatchService.calculate_semantic_matches`. -/
structure SemMatch where
  employee_id : String
  score : ℚ
  semantic_similarity : ℚ
deriving DecidableEq, Repr

/-- The eligibility query of the semantic path: `role in ("employee",
"manager")` and not opted out, in database order. -/
def semanticEligible (st : DBState) : List Employee :=
  st.employees.filter (fun e =>
    (e.role == "employee" || e.role == "manager") && e.visibility_opt_out == false)

/-- `PureSemanticMatchService._clear_existing_matches`: delete (and commit)
every job_matches row of the job, shortlisted or not. -/
def clear_existing_matches (st : DBState) (job_id : String) : DBState :=
  { st with job_matches := st.job_matches.filter (fun r => r.job_id ≠ job_id) }

/-- `PureSemanticMatchService._store_semantic_matches`: no-op on an empty
list, else insert one row per match with `score=int(score)`, an empty
skills_match and `shortlisted=False`. -/
def store_semantic_matches (st : DBState) (job_id : String) (ms : List SemMatch) : DBState :=
  if ms = [] then st
  else
    { st with job_matches := st.job_matches ++ ms.map (fun m =>
        { job_id := job_id, employee_id := m.employee_id,
          score := pyIntTrunc m.score, skills_match := [],
          method := "advanced_semantic_tfidf_lsa", shortlisted := false }) }

/-- The abstracted TF-IDF + LSA + cosine batch pipeline: one similarity per
eligible employee, or `none` when the vectorizer/SVD raises. -/
def SemOracle : Type := Job → List Employee → Option (List ℚ)

/-- The match dict built for one employee at or above the similarity
threshold: `score = round(similarity * 100, 1)`. -/
def semRow (p : Employee × ℚ) : SemMatch := ⟨p.1.id, pyRound1 (p.2 * 100), p.2⟩

/-- The match-building loop of `calculate_semantic_matches`: employees are
paired positionally with their similarities and kept when the raw similarity
is at or above `min_similarity_threshold = 0.05`. -/
def semRows (emps : List Employee) (sims : List ℚ) : List SemMatch :=
  (emps.zip sims).filterMap (fun p =>
    if (1/20 : ℚ) ≤ p.2 then some (semRow p) else none)

/-- `PureSemanticMatchService.calculate_semantic_matches`: job lookup (empty
result when absent), eligibility filter, batch similarity, threshold 0.05,
percentage conversion `round(sim*100, 1)`, stable descending sort on the raw
similarity, then store.  Match creation pairs employees with similarities
positionally (`zip`). -/
def calculate_semantic_matches (fit : SemOracle) (st : DBState) (job_id : String) :
    List SemMatch × DBState :=
  match st.jobs.find? (fun j => j.id == job_id) with
  | none => ([], st)
  | some job =>
    if semanticEligible st = [] then ([], st)
    else
      match fit job (semanticEligible st) with
      | none => ([], st)
      | some sims =>
        (sortScoredDesc (fun m => m.semantic_similarity)
           (semRows (semanticEligible st) sims),
         store_semantic_matches st job_id
           (sortScoredDesc (fun m => m.semantic_similarity)
             (semRows (semanticEligible st) sims)))

/-- How a trigger call ends at the caller (the `/jobs/{job_id}/match` route):
`success` is the 200 "Matching triggered successfully" response. -/
inductive TriggerOutcome
  | success
  | notFound
  | failure (msg : String)
deriving DecidableEq, Repr

/-- `PureSemanticMatchService.trigger_job_matching` (the service behind the
matching route): clear existing matches first, then compute and store the new
ones.  No branch raises, so the route always answers success. -/
def trigger_job_matching (fit : SemOracle) (st : DBState) (job_id : String) :
    TriggerOutcome × List SemMatch × DBState :=
  let st1 := clear_existing_matches st job_id
  let p := calculate_semantic_matches fit st1 job_id
  (TriggerOutcome.success, p.1, p.2)

/-! ## Single-pair scoring and retraining -/

/-- The abstracted two-document TF-IDF/SVD fit of
`PureSemanticMatchService.calculate_match_score`: `some` cosine similarity,
or `none` when fitting raises (degenerate vocabulary). -/
def PairOracle : Type := String → String → Option ℚ

/-- The `except` branch of `calculate_match_score`: word-overlap fraction of
the job's word set found among the employee's words, as a percentage, or 0.0
when the job text has no words. -/
def word_overlap_fallback (job_content emp_content : String) : ℚ :=
  if (pySplit (pyLower job_content)).dedup ≠ [] then
    pyRound1 ((interCount ((pySplit (pyLower job_content)).dedup)
        ((pySplit (pyLower emp_content)).dedup) : ℚ)
      / (((pySplit (pyLower job_content)).dedup.length : ℕ) : ℚ) * 100)
  else 0

/-- `PureSemanticMatchService.calculate_match_score`: similarity as a rounded
percentage on success, the word-overlap fallback on internal failure.  Total:
the Python body catches every exception. -/
def calculate_match_score (pairFit : PairOracle) (job : Job) (emp : Employee) : ℚ :=
  match pairFit (extract_job_semantic_content job) (extract_employee_semantic_content emp) with
  | some s => pyRound1 (s * 100)
  | none =>
    word_overlap_fallback (extract_job_semantic_content job)
      (extract_employee_semantic_content emp)

/-- The summary dict of `AdminService.retrain_matching_model` (only the keys
the claims mention). -/
structure RetrainSummary where
  status : String
  message : String
  jobs_processed : ℕ
deriving DecidableEq, Repr

/-- `AdminService.retrain_matching_model` (the service behind
`POST /admin/retrain-matching-model`): with no jobs at all (of any status) it
returns the "skipped" summary; otherwise it executes
`PureSemanticMatchService()` — whose `__init__(self, db)` has a required
positional parameter — so the call raises `TypeError` before any job is
processed, and the "completed" summary below it is unreachable. -/
def retrain_matching_model (st : DBState) : Except String RetrainSummary :=
  if st.jobs = [] then
    Except.ok { status := "skipped", message := "No jobs found for training", jobs_processed := 0 }
  else
    Except.error "TypeError: PureSemanticMatchService.__init__ missing 1 required positional argument: db"

/-- The summary dict of `PureSemanticMatchService.retrain_model` (the
service-level retrain, not wired to the admin route): status is always the
literal "success". -/
structure SemRetrainStats where
  status : String
  jobs_processed : ℕ
  employees_processed : ℕ
deriving DecidableEq, Repr

/-- `PureSemanticMatchService.retrain_model`: reset the fitted flag and
report counts of open jobs and eligible employees with status "success". -/
def semantic_retrain_model (st : DBState) : SemRetrainStats :=
  { status := "success",
    jobs_processed := (st.jobs.filter (fun j => j.status == "open")).length,
    employees_processed := (semanticEligible st).length }

/-! ## Concrete instances used in counterexamples and witnesses -/

/-- A minimal open job. -/
def jobJ : Job := { id := "J", title := "backend engineer", team := "core", description := "apis" }

/-- A minimal eligible employee (role `employee`, not opted out). -/
def empE : Employee := { id := "E", name := "Eve" }

/-- A persisted match row for (J, E) that HR manually shortlisted. -/
def rowShortlisted : MatchRow :=
  { job_id := "J", employee_id := "E", score := 80,
    method := "industry_standard", shortlisted := true }

/-- An oracle standing for a fit giving every candidate similarity 0.5. -/
def fitHalf : SemOracle := fun _ emps => some (emps.map (fun _ => (1/2 : ℚ)))

/-- A database holding the shortlisted row for (J, E). -/
def stShort : DBState := { jobs := [jobJ], employees := [empE], job_matches := [rowShortlisted] }

/-- A database whose jobs table does not contain "J2" but whose match table
still holds a row filed under "J2". -/
def stOrphan : DBState :=
  { jobs := [jobJ], employees := [],
    job_matches := [{ job_id := "J2", employee_id := "E", score := 70 }] }

/-- The example job of §8 of the spec: required skills Python/FastAPI/AWS,
minimum 3 years. -/
def jobExample : Job :=
  { id := "J1", title := "backend engineer", team := "platform",
    description := "build services",
    required_skills := ["Python", "FastAPI", "AWS"],
    min_years_experience := some 3 }

/-- Candidate A: all three required skills plus Docker, 4 years. -/
def candA : Employee :=
  { id := "A", name := "Alice",
    technical_skills := ["Python", "FastAPI", "AWS", "Docker"],
    years_experience := some 4 }

/-- Candidate B: only Java, 1 year. -/
def candB : Employee :=
  { id := "B", name := "Bob",
    technical_skills := ["Java"],
    years_experience := some 1 }

/-- The example database of §8. -/
def stExample : DBState :=
  { jobs := [jobExample], employees := [candA, candB], job_matches := [] }

/-- The ordering the spec sentence prescribes for the batch result —
descending by score with ties broken by candidate identifier.  This
definition is written from the spec's words (not the source) to compare the
code's output against it. -/
def specSortedDescTieById : List SemMatch → Bool
  | [] => true
  | [_] => true
  | a :: b :: rest =>
    (decide (b.semantic_similarity < a.semantic_similarity) ||
      (decide (b.semantic_similarity = a.semantic_similarity) &&
        decide (a.employee_id ≤ b.employee_id))) &&
    specSortedDescTieById (b :: rest)

/-- Two employees whose ids are in descending order in the candidate pool. -/
def empIdB : Employee := { id := "b", name := "Bea" }

/-- See `empIdB`. -/
def empIdA : Employee := { id := "a", name := "Al" }

/-- A pool listing "b" before "a". -/
def stTie : DBState := { jobs := [jobJ], employees := [empIdB, empIdA], job_matches := [] }

/-- A database with no jobs at all. -/
def stEmptyJobs : DBState := { jobs := [], employees := [empE], job_matches := [] }

/-- A closed job: present in the jobs table, not `status == "open"`. -/
def jobClosed : Job :=
  { id := "JC", title := "old role", team := "core", description := "filled",
    status := "closed" }

/-- A database whose only job is closed, so there are no open jobs. -/
def stClosedJob : DBState := { jobs := [jobClosed], employees := [empE], job_matches := [] }

/-- An oracle standing for a fit giving every candidate similarity 0.675. -/
def fit0675 : SemOracle := fun _ emps => some (emps.map (fun _ => (27/40 : ℚ)))

/-- An empty match table with one job and one candidate. -/
def stScore : DBState := { jobs := [jobJ], employees := [empE], job_matches := [] }

/-- A manager-roled candidate who has not opted out. -/
def empMgr : Employee := { id := "M", name := "Mo", role := "manager" }

/-- A pool containing only the manager. -/
def stMgr : DBState := { jobs := [jobJ], employees := [empMgr], job_matches := [] }

/-! ## General lemmas: the stable sort, rounding bounds, persistence shapes -/

set_option maxRecDepth 8000

theorem insertScoredDesc_perm {α : Type} (key : α → ℚ) (x : α) :
    ∀ l : List α, (insertScoredDesc key x l).Perm (x :: l)
  | [] => by simp [insertScoredDesc]
  | y :: ys => by
    simp only [insertScoredDesc]
    split
    · exact List.Perm.refl _
    · exact ((insertScoredDesc_perm key x ys).cons y).trans (List.Perm.swap x y ys)

theorem sortScoredDesc_perm {α : Type} (key : α → ℚ) :
    ∀ l : List α, (sortScoredDesc key l).Perm l
  | [] => List.Perm.refl _
  | x :: xs => by
    simpa [sortScoredDesc] using
      (insertScoredDesc_perm key x (sortScoredDesc key xs)).trans
        ((sortScoredDesc_perm key xs).cons x)

theorem mem_sortScoredDesc {α : Type} {key : α → ℚ} {l : List α} {a : α} :
    a ∈ sortScoredDesc key l ↔ a ∈ l :=
  (sortScoredDesc_perm key l).mem_iff

theorem insertScoredDesc_pairwise {α : Type} (key : α → ℚ) (x : α) :
    ∀ l : List α, l.Pairwise (fun a b => key b ≤ key a) →
      (insertScoredDesc key x l).Pairwise (fun a b => key b ≤ key a)
  | [], _ => by simp [insertScoredDesc]
  | y :: ys, h => by
    rcases List.pairwise_cons.1 h with ⟨hy, hys⟩
    simp only [insertScoredDesc]
    split
    case isTrue hle =>
      refine List.pairwise_cons.2 ⟨?_, h⟩
      intro z hz
      rcases List.mem_cons.1 hz with rfl | hz
      · exact hle
      · exact (hy z hz).trans hle
    case isFalse hgt =>
      refine List.pairwise_cons.2 ⟨?_, insertScoredDesc_pairwise key x ys hys⟩
      intro z hz
      rcases List.mem_cons.1 ((insertScoredDesc_perm key x ys).mem_iff.1 hz) with rfl | hz
      · exact le_of_not_le hgt
      · exact hy z hz

theorem sortScoredDesc_pairwise {α : Type} (key : α → ℚ) :
    ∀ l : List α, (sortScoredDesc key l).Pairwise (fun a b => key b ≤ key a)
  | [] => List.Pairwise.nil
  | x :: xs => insertScoredDesc_pairwise key x _ (sortScoredDesc_pairwise key xs)

theorem insertScoredDesc_filter_of_ne {α : Type} (key : α → ℚ) (x : α) (q : ℚ)
    (hx : ¬ key x = q) :
    ∀ l : List α,
      (insertScoredDesc key x l).filter (fun a => decide (key a = q)) =
        l.filter (fun a => decide (key a = q))
  | [] => by simp [insertScoredDesc, hx]
  | y :: ys => by
    simp only [insertScoredDesc]
    split
    · simp [List.filter_cons, hx]
    · simp [List.filter_cons, insertScoredDesc_filter_of_ne key x q hx ys]

theorem insertScoredDesc_filter_of_eq {α : Type} (key : α → ℚ) (x : α) (q : ℚ)
    (hx : key x = q) :
    ∀ l : List α, l.Pairwise (fun a b => key b ≤ key a) →
      (insertScoredDesc key x l).filter (fun a => decide (key a = q)) =
        x :: l.filter (fun a => decide (key a = q))
  | [], _ => by simp [insertScoredDesc, hx]
  | y :: ys, h => by
    rcases List.pairwise_cons.1 h with ⟨hy, hys⟩
    simp only [insertScoredDesc]
    split
    case isTrue hle => simp [List.filter_cons, hx]
    case isFalse hgt =>
      have hyq : ¬ key y = q := fun hq => hgt (le_of_eq (hx ▸ hq))
      simp [List.filter_cons, hyq, insertScoredDesc_filter_of_eq key x q hx ys hys]

/-- Stability of the embedded sort: within one similarity/score class the
output keeps the input (candidate-pool) order. -/
theorem sortScoredDesc_stable {α : Type} (key : α → ℚ) (q : ℚ) :
    ∀ l : List α,
      (sortScoredDesc key l).filter (fun a => decide (key a = q)) =
        l.filter (fun a => decide (key a = q))
  | [] => rfl
  | x :: xs => by
    by_cases hx : key x = q
    · rw [sortScoredDesc,
        insertScoredDesc_filter_of_eq key x q hx _ (sortScoredDesc_pairwise key xs),
        sortScoredDesc_stable key q xs]
      simp [List.filter_cons, hx]
    · rw [sortScoredDesc, insertScoredDesc_filter_of_ne key x q hx,
        sortScoredDesc_stable key q xs]
      simp [List.filter_cons, hx]

theorem halfEvenRound_nonneg {q : ℚ} (h : 0 ≤ q) : 0 ≤ halfEvenRound q := by
  have hf : 0 ≤ ⌊q⌋ := Int.le_floor.mpr (by exact_mod_cast h)
  unfold halfEvenRound
  split_ifs <;> omega

theorem halfEvenRound_le {q : ℚ} {n : ℤ} (h : q ≤ (n : ℚ)) : halfEvenRound q ≤ n := by
  have hf : ⌊q⌋ ≤ n := by
    have := Int.floor_le_floor h
    rwa [Int.floor_intCast] at this
  have hfl : (⌊q⌋ : ℚ) ≤ q := Int.floor_le q
  unfold halfEvenRound
  split_ifs with h1 h2 h3
  · exact hf
  · have hlt : (⌊q⌋ : ℚ) + 1/2 < (n : ℚ) := by linarith
    have : (⌊q⌋ : ℚ) < (n : ℚ) := by linarith
    have : ⌊q⌋ < n := by exact_mod_cast this
    omega
  · exact hf
  · have h12 : q - (⌊q⌋ : ℚ) = 1/2 := le_antisymm (not_lt.1 h2) (not_lt.1 h1)
    have : (⌊q⌋ : ℚ) < (n : ℚ) := by linarith
    have : ⌊q⌋ < n := by exact_mod_cast this
    omega

theorem pyRound1_nonneg {q : ℚ} (h : 0 ≤ q) : 0 ≤ pyRound1 q := by
  unfold pyRound1
  have h10 : 0 ≤ halfEvenRound (q * 10) := halfEvenRound_nonneg (by linarith)
  have : (0 : ℚ) ≤ (halfEvenRound (q * 10) : ℚ) := by exact_mod_cast h10
  positivity

theorem pyRound1_le_100 {q : ℚ} (h : q ≤ 100) : pyRound1 q ≤ 100 := by
  unfold pyRound1
  have h10 : halfEvenRound (q * 10) ≤ (1000 : ℤ) := halfEvenRound_le (by push_cast; linarith)
  rw [div_le_iff₀ (by norm_num)]
  calc (halfEvenRound (q * 10) : ℚ) ≤ 1000 := by exact_mod_cast h10
  _ = 100 * 10 := by norm_num

theorem pyIntTrunc_nonneg {q : ℚ} (h : 0 ≤ q) : 0 ≤ pyIntTrunc q := by
  unfold pyIntTrunc
  rw [if_pos h]
  exact Int.le_floor.mpr (by exact_mod_cast h)

theorem pyIntTrunc_le {q : ℚ} {n : ℤ} (h0 : 0 ≤ q) (h : q ≤ (n : ℚ)) : pyIntTrunc q ≤ n := by
  unfold pyIntTrunc
  rw [if_pos h0]
  have := Int.floor_le_floor h
  rwa [Int.floor_intCast] at this

theorem clear_existing_matches_jobs (st : DBState) (jid : String) :
    (clear_existing_matches st jid).jobs = st.jobs := rfl

theorem clear_existing_matches_employees (st : DBState) (jid : String) :
    (clear_existing_matches st jid).employees = st.employees := rfl

theorem clear_existing_matches_idem (st : DBState) (jid : String) :
    clear_existing_matches (clear_existing_matches st jid) jid =
      clear_existing_matches st jid := by
  simp [clear_existing_matches, List.filter_filter]

theorem clear_store_semantic (st : DBState) (jid : String) (ms : List SemMatch) :
    clear_existing_matches (store_semantic_matches st jid ms) jid =
      clear_existing_matches st jid := by
  unfold store_semantic_matches
  split
  · rfl
  · simp [clear_existing_matches, List.filter_append, List.filter_map, Function.comp]

/-- `calculate_semantic_matches` either leaves the state alone (missing job,
empty pool, failed fit) or stores exactly the result list. -/
theorem calc_sem_state_cases (fit : SemOracle) (st : DBState) (jid : String) :
    (calculate_semantic_matches fit st jid).2 = st ∨
    (calculate_semantic_matches fit st jid).2 =
      store_semantic_matches st jid (calculate_semantic_matches fit st jid).1 := by
  unfold calculate_semantic_matches
  split
  · exact Or.inl rfl
  · split
    · exact Or.inl rfl
    · split
      · exact Or.inl rfl
      · exact Or.inr rfl

/-- The rows the semantic batch path returns: each comes from an eligible
employee paired with a similarity at or above 0.05, and carries the rounded
percentage as its score. -/
theorem calc_sem_result_rows (fit : SemOracle) (st : DBState) (jid : String) :
    ∀ m ∈ (calculate_semantic_matches fit st jid).1,
      ∃ e ∈ semanticEligible st, m.employee_id = e.id ∧
        (1/20 : ℚ) ≤ m.semantic_similarity ∧
        m.score = pyRound1 (m.semantic_similarity * 100) := by
  unfold calculate_semantic_matches
  split
  · intro m hm; exact absurd hm (List.not_mem_nil m)
  · split
    · intro m hm; exact absurd hm (List.not_mem_nil m)
    · split
      · intro m hm; exact absurd hm (List.not_mem_nil m)
      · intro m hm
        rcases List.mem_filterMap.1 (mem_sortScoredDesc.1 hm) with ⟨p, hp, he⟩
        split at he
        case isTrue hth =>
          cases he
          exact ⟨p.1, (List.of_mem_zip hp).1, rfl, hth, rfl⟩
        case isFalse hth => cases he

/-- Membership in the semantic eligibility filter, unpacked. -/
theorem mem_semanticEligible {st : DBState} {e : Employee} (h : e ∈ semanticEligible st) :
    e ∈ st.employees ∧ (e.role = "employee" ∨ e.role = "manager") ∧
      e.visibility_opt_out = false := by
  rcases List.mem_filter.1 h with ⟨hmem, hcond⟩
  simp only [Bool.and_eq_true, Bool.or_eq_true, beq_iff_eq] at hcond
  exact ⟨hmem, hcond.1, hcond.2⟩

/-- Membership in the rule-based eligibility filter, unpacked. -/
theorem mem_ruleEligible {st : DBState} {e : Employee} (h : e ∈ ruleEligible st) :
    e ∈ st.employees ∧ e.role = "employee" ∧ e.visibility_opt_out = false := by
  rcases List.mem_filter.1 h with ⟨hmem, hcond⟩
  simp only [Bool.and_eq_true, beq_iff_eq] at hcond
  exact ⟨hmem, hcond.1, hcond.2⟩

/-- The weighted sum of `_calculate_industry_standard_score` is capped at
100 (`min(total_score, 100.0)`). -/
theorem industry_score_le_100 (job : Job) (e : Employee) :
    calculate_industry_standard_score job e ≤ 100 := by
  unfold calculate_industry_standard_score
  exact min_le_right _ _

/-- Every match the rule-based path returns carries `round(score, 1)` of an
industry-standard score that passed the 20.0 threshold (and is capped at
100). -/
theorem rule_result_scores (st : DBState) (jid : String) :
    ∀ m ∈ (calculate_matches_for_job st jid).1,
      ∃ q : ℚ, (20 : ℚ) ≤ q ∧ q ≤ 100 ∧ m.score = pyRound1 q := by
  unfold calculate_matches_for_job
  split
  · intro m hm; exact absurd hm (List.not_mem_nil m)
  · intro m hm
    rcases List.mem_filterMap.1 (mem_sortScoredDesc.1 hm) with ⟨e, he, hm2⟩
    split at hm2
    case isTrue hth =>
      cases hm2
      exact ⟨_, hth, industry_score_le_100 _ e, rfl⟩
    case isFalse => cases hm2

/-- The rows the rule-based path returns all come from eligible employees. -/
theorem rule_result_rows (st : DBState) (jid : String) :
    ∀ m ∈ (calculate_matches_for_job st jid).1,
      ∃ e ∈ ruleEligible st, m.employee_id = e.id := by
  unfold calculate_matches_for_job
  split
  · intro m hm; exact absurd hm (List.not_mem_nil m)
  · intro m hm
    rcases List.mem_filterMap.1 (mem_sortScoredDesc.1 hm) with ⟨e, he, hm2⟩
    split at hm2
    · cases hm2
      exact ⟨e, he, rfl⟩
    · cases hm2

theorem trigger_result_rows (fit : SemOracle) (st : DBState) (jid : String) :
    ∀ m ∈ (trigger_job_matching fit st jid).2.1,
      ∃ e ∈ semanticEligible st, m.employee_id = e.id ∧
        (1/20 : ℚ) ≤ m.semantic_similarity ∧
        m.score = pyRound1 (m.semantic_similarity * 100) := by
  intro m hm
  exact calc_sem_result_rows fit (clear_existing_matches st jid) jid m hm

/-- Every row in the post-trigger state either survived from before (a row of
another job) or is a fresh row of this job, carrying `shortlisted = False` and
the truncated integer score of one of the returned matches. -/
theorem trigger_post_rows (fit : SemOracle) (st : DBState) (jid : String) :
    ∀ r ∈ (trigger_job_matching fit st jid).2.2.job_matches,
      (r ∈ st.job_matches ∧ r.job_id ≠ jid) ∨
      (r.job_id = jid ∧ r.shortlisted = false ∧ r.skills_match = [] ∧
        r.method = "advanced_semantic_tfidf_lsa" ∧
        ∃ m ∈ (trigger_job_matching fit st jid).2.1,
          r.employee_id = m.employee_id ∧ r.score = pyIntTrunc m.score) := by
  intro r hr
  have hpost : (trigger_job_matching fit st jid).2.2 =
      (calculate_semantic_matches fit (clear_existing_matches st jid) jid).2 := rfl
  rcases calc_sem_state_cases fit (clear_existing_matches st jid) jid with hc | hc
  · rw [hpost, hc] at hr
    rcases List.mem_filter.1 hr with ⟨hmem, hne⟩
    exact Or.inl ⟨hmem, by simpa using hne⟩
  · rw [hpost, hc] at hr
    unfold store_semantic_matches at hr
    split at hr
    · rcases List.mem_filter.1 hr with ⟨hmem, hne⟩
      exact Or.inl ⟨hmem, by simpa using hne⟩
    · rcases List.mem_append.1 hr with h | h
      · rcases List.mem_filter.1 h with ⟨hmem, hne⟩
        exact Or.inl ⟨hmem, by simpa using hne⟩
      · rcases List.mem_map.1 h with ⟨m, hm, rfl⟩
        exact Or.inr ⟨rfl, rfl, rfl, rfl, m, hm, rfl, rfl⟩

/-- Every row in the post-store state of the rule-based path either survived
from before or is a fresh row of this job with the truncated score. -/
theorem rule_post_rows (st : DBState) (jid : String) :
    ∀ r ∈ (calculate_matches_for_job st jid).2.job_matches,
      r ∈ st.job_matches ∨
      (r.job_id = jid ∧ r.shortlisted = false ∧ r.method = "industry_standard" ∧
        ∃ m ∈ (calculate_matches_for_job st jid).1,
          r.employee_id = m.employee_id ∧ r.score = pyIntTrunc m.score) := by
  unfold calculate_matches_for_job
  split
  · intro r hr; exact Or.inl hr
  · intro r hr
    simp only [store_rule_matches] at hr
    rcases List.mem_append.1 hr with h | h
    · exact Or.inl (List.mem_filter.1 h).1
    · rcases List.mem_map.1 h with ⟨m, hm, rfl⟩
      exact Or.inr ⟨rfl, rfl, rfl, m, hm, rfl, rfl⟩

/-! ## Claim C1 — shortlist preservation across recomputation -/

/-- C1, counterexample.  The claim says a persisted (job, candidate) row with
`shortlisted = True` still has the flag after re-running the matching trigger.
In the code, `trigger_job_matching` first deletes every row of the job
(`_clear_existing_matches`) and `_store_semantic_matches` re-inserts with
`shortlisted=False`, so the manually shortlisted (J, E) row comes back with
the flag cleared. -/
theorem C1_counterexample :
    rowShortlisted ∈ stShort.job_matches ∧ rowShortlisted.shortlisted = true ∧
    rowShortlisted.job_id = "J" ∧ rowShortlisted.employee_id = "E" ∧
    (trigger_job_matching fitHalf stShort "J").2.2.job_matches =
      [{ job_id := "J", employee_id := "E", score := 50, skills_match := [],
         method := "advanced_semantic_tfidf_lsa", shortlisted := false }] := by
  with_unfolding_all decide

/-- C1, amended: re-running the matching trigger deletes every persisted row
of the job — shortlisted or not — and re-inserts fresh rows with
`shortlisted = False`; rows of other jobs are untouched.  Manual curation
does not survive recomputation. -/
theorem C1_amended (fit : SemOracle) (st : DBState) (jid : String) :
    (∀ r ∈ (trigger_job_matching fit st jid).2.2.job_matches,
        r.job_id = jid → r.shortlisted = false) ∧
    (trigger_job_matching fit st jid).2.2.job_matches.filter (fun r => r.job_id ≠ jid) =
      st.job_matches.filter (fun r => r.job_id ≠ jid) := by
  constructor
  · intro r hr hid
    rcases trigger_post_rows fit st jid r hr with ⟨_, hne⟩ | ⟨_, hsh, _⟩
    · exact absurd hid hne
    · exact hsh
  · have h1 : clear_existing_matches (trigger_job_matching fit st jid).2.2 jid =
        clear_existing_matches st jid := by
      have hpost : (trigger_job_matching fit st jid).2.2 =
          (calculate_semantic_matches fit (clear_existing_matches st jid) jid).2 := rfl
      rcases calc_sem_state_cases fit (clear_existing_matches st jid) jid with hc | hc
      · rw [hpost, hc, clear_existing_matches_idem]
      · rw [hpost, hc, clear_store_semantic, clear_existing_matches_idem]
    exact congrArg DBState.job_matches h1

/-- C1, witness for the amended theorem at the concrete shortlisted state. -/
theorem C1_amended_witness :
    ({ job_id := "J", employee_id := "E", score := 50, skills_match := [],
       method := "advanced_semantic_tfidf_lsa", shortlisted := false } : MatchRow).shortlisted
      = false :=
  (C1_amended fitHalf stShort "J").1 _ (by with_unfolding_all decide) rfl

/-! ## Claim C2 — trigger on a missing job -/

/-- C2, counterexample.  The claim says triggering a missing job aborts with
NotFound and leaves persisted rows unchanged.  In the code the route reports
success — `calculate_semantic_matches` merely logs and returns `[]`, nothing
raises NotFound — and the matches of the missing job id have already been
deleted and committed by `_clear_existing_matches`, a persistence side
effect. -/
theorem C2_counterexample :
    (stOrphan.jobs.all (fun j => j.id ≠ "J2")) = true ∧
    (trigger_job_matching fitHalf stOrphan "J2").1 = TriggerOutcome.success ∧
    (trigger_job_matching fitHalf stOrphan "J2").1 ≠ TriggerOutcome.notFound ∧
    (trigger_job_matching fitHalf stOrphan "J2").2.2.job_matches ≠ stOrphan.job_matches := by
  with_unfolding_all decide

/-- C2, amended: for a job id with no matching job the trigger completes with
the route's success response (never NotFound), returns the empty match list,
and its only persistence effect is the initial deletion of any rows stored
under that job id. -/
theorem C2_amended (fit : SemOracle) (st : DBState) (jid : String)
    (habs : st.jobs.find? (fun j => j.id == jid) = none) :
    (trigger_job_matching fit st jid).1 = TriggerOutcome.success ∧
    (trigger_job_matching fit st jid).2.1 = [] ∧
    (trigger_job_matching fit st jid).2.2.job_matches =
      st.job_matches.filter (fun r => r.job_id ≠ jid) := by
  have hcalc : calculate_semantic_matches fit (clear_existing_matches st jid) jid =
      ([], clear_existing_matches st jid) := by
    unfold calculate_semantic_matches
    rw [show (clear_existing_matches st jid).jobs = st.jobs from rfl, habs]
  exact ⟨rfl, congrArg Prod.fst hcalc,
    congrArg (fun p => DBState.job_matches p.2) hcalc⟩

/-- C2, witness for the amended theorem at the concrete orphan state. -/
theorem C2_amended_witness :
    (trigger_job_matching fitHalf stOrphan "J2").1 = TriggerOutcome.success ∧
    (trigger_job_matching fitHalf stOrphan "J2").2.1 = [] ∧
    (trigger_job_matching fitHalf stOrphan "J2").2.2.job_matches =
      stOrphan.job_matches.filter (fun r => r.job_id ≠ "J2") :=
  C2_amended fitHalf stOrphan "J2" (by with_unfolding_all decide)

/-! ## Claim C3 — the worked rule-based example -/

/-- C3, counterexample.  The claim says candidate B scores below the 20.0
threshold and is excluded.  On the code B scores 29.5 — the empty
optional-skill set contributes its full weight 10 (`_calculate_skills_match`
returns 1.0 for an empty skill set), the missing aspiration text contributes
the neutral 7.5, and the experience deficit still leaves 12 — so B is at or
above the threshold and appears in the results. -/
theorem C3_counterexample :
    calculate_industry_standard_score jobExample candB = 59/2 ∧
    ¬ (calculate_industry_standard_score jobExample candB < 20) ∧
    ((calculate_matches_for_job stExample "J1").1.map
      (fun m => m.employee_id)).contains "B" = true := by
  with_unfolding_all decide

/-- C3, amended: candidate A scores 67.5 (> 60, required-exact term 30,
experience term exactly 20) as the claim says, but candidate B scores 29.5,
at or above the 20.0 qualification threshold, and is therefore included in
the persisted results, sorted after A. -/
theorem C3_amended :
    calc_skills_match (normalize_skills jobExample.required_skills)
        (normalize_skills candA.technical_skills) * 30 = 30 ∧
    calc_experience_match jobExample candA * 20 = 20 ∧
    calculate_industry_standard_score jobExample candA = 135/2 ∧
    60 < calculate_industry_standard_score jobExample candA ∧
    calculate_industry_standard_score jobExample candB = 59/2 ∧
    20 ≤ calculate_industry_standard_score jobExample candB ∧
    (calculate_matches_for_job stExample "J1").1.map (fun m => m.employee_id) = ["A", "B"] ∧
    (calculate_matches_for_job stExample "J1").1.map (fun m => m.score) = [135/2, 59/2] := by
  with_unfolding_all decide

/-! ## Claim C4 — idempotence of the matching trigger -/

/-- C4, counterexample.  The claim requires manually-set shortlist flags to
be preserved across a double run.  Running the trigger twice over the
shortlisted state leaves the (J, E) row with `shortlisted = False`: the flag
set before the first run is not preserved by the pair of runs. -/
theorem C4_counterexample :
    rowShortlisted ∈ stShort.job_matches ∧ rowShortlisted.shortlisted = true ∧
    ((trigger_job_matching fitHalf
        (trigger_job_matching fitHalf stShort "J").2.2 "J").2.2.job_matches.all
      (fun r => !r.shortlisted)) = true ∧
    (trigger_job_matching fitHalf
        (trigger_job_matching fitHalf stShort "J").2.2 "J").2.2.job_matches ≠ [] := by
  with_unfolding_all decide

/-- C4, amended: with unchanged job and employee data, running the trigger
twice returns the same match list and leaves the same persisted state as
running it once (same candidates, scores and ordering); shortlist flags are
not preserved — each run resets every row of the job to
`shortlisted = False`. -/
theorem C4_amended (fit : SemOracle) (st : DBState) (jid : String) :
    (trigger_job_matching fit (trigger_job_matching fit st jid).2.2 jid).2.1 =
      (trigger_job_matching fit st jid).2.1 ∧
    (trigger_job_matching fit (trigger_job_matching fit st jid).2.2 jid).2.2 =
      (trigger_job_matching fit st jid).2.2 := by
  have hclear : clear_existing_matches (trigger_job_matching fit st jid).2.2 jid =
      clear_existing_matches st jid := by
    have hpost : (trigger_job_matching fit st jid).2.2 =
        (calculate_semantic_matches fit (clear_existing_matches st jid) jid).2 := rfl
    rcases calc_sem_state_cases fit (clear_existing_matches st jid) jid with hc | hc
    · rw [hpost, hc, clear_existing_matches_idem]
    · rw [hpost, hc, clear_store_semantic, clear_existing_matches_idem]
  constructor
  · show (calculate_semantic_matches fit
        (clear_existing_matches (trigger_job_matching fit st jid).2.2 jid) jid).1 = _
    rw [hclear]
    rfl
  · show (calculate_semantic_matches fit
        (clear_existing_matches (trigger_job_matching fit st jid).2.2 jid) jid).2 = _
    rw [hclear]
    rfl

/-! ## Claim C5 — the semantic batch result: threshold, order, tie-break -/

/-- C5, counterexample.  With two candidates of equal similarity 0.5, the
code's `matches.sort(key=..., reverse=True)` is merely stable: the output
keeps the pool order ["b", "a"], not the id order ["a", "b"] the claim's
tie-break requires. -/
theorem C5_counterexample :
    (calculate_semantic_matches fitHalf stTie "J").1.map (fun m => m.employee_id) = ["b", "a"] ∧
    (calculate_semantic_matches fitHalf stTie "J").1.map (fun m => m.semantic_similarity) =
      [1/2, 1/2] ∧
    specSortedDescTieById (calculate_semantic_matches fitHalf stTie "J").1 = false := by
  with_unfolding_all decide

/-- C5, amended: the batch result contains exactly the eligible candidates
whose raw similarity is at or above 0.05 (a permutation of the thresholded
zip, with completeness), is sorted descending by raw similarity, and breaks
ties by keeping the candidate-pool order (stable sort) — not by candidate
identifier. -/
theorem C5_amended (fit : SemOracle) (st : DBState) (jid : String) (job : Job) (sims : List ℚ)
    (hfind : st.jobs.find? (fun j => j.id == jid) = some job)
    (hne : ¬ semanticEligible st = [])
    (hfit : fit job (semanticEligible st) = some sims) :
    (calculate_semantic_matches fit st jid).1.Perm (semRows (semanticEligible st) sims) ∧
    (calculate_semantic_matches fit st jid).1.Pairwise
      (fun a b => b.semantic_similarity ≤ a.semantic_similarity) ∧
    (∀ q : ℚ, (calculate_semantic_matches fit st jid).1.filter
        (fun m => decide (m.semantic_similarity = q)) =
      (semRows (semanticEligible st) sims).filter
        (fun m => decide (m.semantic_similarity = q))) ∧
    (∀ m ∈ semRows (semanticEligible st) sims, (1/20 : ℚ) ≤ m.semantic_similarity) ∧
    (∀ p : Employee × ℚ, p ∈ (semanticEligible st).zip sims → (1/20 : ℚ) ≤ p.2 →
      semRow p ∈ (calculate_semantic_matches fit st jid).1) := by
  have hres : (calculate_semantic_matches fit st jid).1 =
      sortScoredDesc (fun m => m.semantic_similarity) (semRows (semanticEligible st) sims) := by
    simp only [calculate_semantic_matches, hfind, if_neg hne, hfit]
  refine ⟨?_, ?_, ?_, ?_, ?_⟩
  · rw [hres]; exact sortScoredDesc_perm _ _
  · rw [hres]; exact sortScoredDesc_pairwise _ _
  · intro q; rw [hres]; exact sortScoredDesc_stable _ q _
  · intro m hm
    rcases List.mem_filterMap.1 hm with ⟨p, hp, he⟩
    split at he
    case isTrue hth => cases he; exact hth
    case isFalse => cases he
  · intro p hp hth
    rw [hres, mem_sortScoredDesc]
    exact List.mem_filterMap.2 ⟨p, hp, by rw [if_pos hth]⟩

/-- C5, witness for the amended theorem at the concrete tied pool. -/
theorem C5_amended_witness :
    (calculate_semantic_matches fitHalf stTie "J").1.Pairwise
      (fun a b => b.semantic_similarity ≤ a.semantic_similarity) :=
  (C5_amended fitHalf stTie "J" jobJ [1/2, 1/2] (by with_unfolding_all decide)
    (by with_unfolding_all decide) (by with_unfolding_all decide)).2.1

/-! ## Claim C6 — totality and range of the single-pair scorer -/

theorem word_overlap_fallback_bounds (jc ec : String) :
    0 ≤ word_overlap_fallback jc ec ∧ word_overlap_fallback jc ec ≤ 100 := by
  unfold word_overlap_fallback
  split
  case isTrue hne =>
    have hlen : 0 < ((pySplit (pyLower jc)).dedup.length : ℚ) := by
      have : (pySplit (pyLower jc)).dedup ≠ [] := by simpa using hne
      have := List.length_pos.2 this
      exact_mod_cast this
    have hinter : (interCount ((pySplit (pyLower jc)).dedup) ((pySplit (pyLower ec)).dedup) : ℚ)
        ≤ ((pySplit (pyLower jc)).dedup.length : ℚ) := by
      have := List.length_filter_le
        (fun s => ((pySplit (pyLower ec)).dedup).contains s) ((pySplit (pyLower jc)).dedup)
      exact_mod_cast this
    have hfrac0 : (0 : ℚ) ≤ (interCount ((pySplit (pyLower jc)).dedup)
        ((pySplit (pyLower ec)).dedup) : ℚ) / ((pySplit (pyLower jc)).dedup.length : ℚ) := by
      positivity
    have hfrac1 : (interCount ((pySplit (pyLower jc)).dedup)
        ((pySplit (pyLower ec)).dedup) : ℚ) / ((pySplit (pyLower jc)).dedup.length : ℚ) ≤ 1 :=
      (div_le_one hlen).2 hinter
    constructor
    · exact pyRound1_nonneg (by positivity)
    · exact pyRound1_le_100 (by nlinarith)
  case isFalse => exact ⟨le_refl 0, by norm_num⟩

/-- C6: `calculate_match_score` never raises (it is a total function of the
pair-fit outcome), returns a value in [0, 100] whenever the abstracted
TF-IDF/SVD cosine lies in [0, 1], returns exactly the word-overlap fallback
when the fit raises, and returns 0.0 when additionally the job text has no
tokens. -/
theorem C6_single_pair_total (pairFit : PairOracle) (job : Job) (emp : Employee)
    (hbound : ∀ s : ℚ,
      pairFit (extract_job_semantic_content job) (extract_employee_semantic_content emp) = some s →
      0 ≤ s ∧ s ≤ 1) :
    (0 ≤ calculate_match_score pairFit job emp ∧ calculate_match_score pairFit job emp ≤ 100) ∧
    (pairFit (extract_job_semantic_content job) (extract_employee_semantic_content emp) = none →
      calculate_match_score pairFit job emp =
        word_overlap_fallback (extract_job_semantic_content job)
          (extract_employee_semantic_content emp)) ∧
    (pairFit (extract_job_semantic_content job) (extract_employee_semantic_content emp) = none →
      pySplit (pyLower (extract_job_semantic_content job)) = [] →
      calculate_match_score pairFit job emp = 0) := by
  unfold calculate_match_score
  cases hfit : pairFit (extract_job_semantic_content job) (extract_employee_semantic_content emp)
  case none =>
    refine ⟨word_overlap_fallback_bounds _ _, fun _ => rfl, fun _ hjw => ?_⟩
    unfold word_overlap_fallback
    rw [if_neg (by simp [hjw])]
  case some s =>
    rcases hbound s hfit with ⟨h0, h1⟩
    refine ⟨⟨pyRound1_nonneg (by positivity), pyRound1_le_100 (by nlinarith)⟩,
      fun hcon => ?_, fun hcon => ?_⟩ <;>
      exact (Option.some_ne_none s hcon).elim

/-- C6, witness: a fit returning cosine 0.5 on a concrete pair. -/
theorem C6_witness :
    (0 ≤ calculate_match_score (fun _ _ => some (1/2)) jobJ empE ∧
      calculate_match_score (fun _ _ => some (1/2)) jobJ empE ≤ 100) ∧
    ((fun _ _ => some (1/2) : PairOracle) (extract_job_semantic_content jobJ)
        (extract_employee_semantic_content empE) = none →
      calculate_match_score (fun _ _ => some (1/2)) jobJ empE =
        word_overlap_fallback (extract_job_semantic_content jobJ)
          (extract_employee_semantic_content empE)) ∧
    ((fun _ _ => some (1/2) : PairOracle) (extract_job_semantic_content jobJ)
        (extract_employee_semantic_content empE) = none →
      pySplit (pyLower (extract_job_semantic_content jobJ)) = [] →
      calculate_match_score (fun _ _ => some (1/2)) jobJ empE = 0) :=
  C6_single_pair_total (fun _ _ => some (1/2)) jobJ empE
    (fun s hs => by cases hs; exact ⟨by norm_num, by norm_num⟩)

/-! ## Claim C7 — the retrain operation -/

/-- C7, code behavior at the failing input.  With no jobs at all the admin
retrain returns the "skipped" summary (jobs of any status count, not open
jobs, and the summary carries no candidate count).  With any job present —
here a closed one, so there are still no open jobs — the code raises
`TypeError` (`PureSemanticMatchService()` lacks its required `db` argument,
and `calculate_semantic_matches(job, db)` passes two arguments to a
one-parameter method), so the "completed" summary is unreachable.  The
service-level `retrain_model` (not wired to the route) always reports
"success", never "skipped" or "completed". -/
theorem C7_code_behavior :
    retrain_matching_model stEmptyJobs =
      Except.ok { status := "skipped", message := "No jobs found for training",
                  jobs_processed := 0 } ∧
    stClosedJob.jobs.filter (fun j => j.status == "open") = [] ∧
    retrain_matching_model stClosedJob =
      Except.error
        "TypeError: PureSemanticMatchService.__init__ missing 1 required positional argument: db" ∧
    (semantic_retrain_model stClosedJob).status = "success" :=
  ⟨rfl, by decide, rfl, rfl⟩

/-! ## Claim C8 — score precision through persistence -/

/-- C8, counterexample.  The computed percentage for similarity 0.675 is
round(67.5, 1) = 67.5, but both stores persist `score=int(match["score"])`,
so the row holds 67: the stored score does not equal the percentage rounded
to one decimal, and the decimal digit is lost. -/
theorem C8_counterexample :
    (calculate_semantic_matches fit0675 stScore "J").1 =
      [{ employee_id := "E", score := 135/2, semantic_similarity := 27/40 }] ∧
    pyRound1 ((27/40 : ℚ) * 100) = 135/2 ∧
    (calculate_semantic_matches fit0675 stScore "J").2.job_matches =
      [{ job_id := "J", employee_id := "E", score := 67, skills_match := [],
         method := "advanced_semantic_tfidf_lsa", shortlisted := false }] ∧
    ((67 : ℚ) ≠ 135/2) := by
  with_unfolding_all decide

/-- C8, amended: both stores persist the integer truncation of the
one-decimal percentage.  Each row the semantic trigger persists for the job
stores `int(round(sim*100, 1))`, an integer in [0, 100] whenever the raw
similarity lies in [0, 1]; and each fresh row `_store_matches` persists on
the rule-based path stores `int(round(score, 1))` of a threshold-passing
industry-standard score, an integer in [0, 100] unconditionally. -/
theorem C8_amended (fit : SemOracle) (st : DBState) (jid : String) :
    (∀ r ∈ (trigger_job_matching fit st jid).2.2.job_matches, r.job_id = jid →
      ∃ m ∈ (trigger_job_matching fit st jid).2.1,
        r.employee_id = m.employee_id ∧
        m.score = pyRound1 (m.semantic_similarity * 100) ∧
        r.score = pyIntTrunc m.score ∧
        (0 ≤ m.semantic_similarity → m.semantic_similarity ≤ 1 →
          0 ≤ r.score ∧ r.score ≤ 100)) ∧
    (∀ r ∈ (calculate_matches_for_job st jid).2.job_matches, r.job_id = jid →
      r ∈ st.job_matches ∨
      ∃ m ∈ (calculate_matches_for_job st jid).1,
        r.employee_id = m.employee_id ∧
        (∃ q : ℚ, (20 : ℚ) ≤ q ∧ q ≤ 100 ∧ m.score = pyRound1 q) ∧
        r.score = pyIntTrunc m.score ∧
        (0 ≤ r.score ∧ r.score ≤ 100)) := by
  constructor
  · intro r hr hid
    rcases trigger_post_rows fit st jid r hr with ⟨_, hne⟩ | ⟨_, _, _, _, m, hm, hemp, hsc⟩
    · exact absurd hid hne
    · rcases trigger_result_rows fit st jid m hm with ⟨e, _, _, _, hscore⟩
      refine ⟨m, hm, hemp, hscore, hsc, fun h0 h1 => ?_⟩
      constructor
      · rw [hsc, hscore]
        exact pyIntTrunc_nonneg (pyRound1_nonneg (by positivity))
      · rw [hsc, hscore]
        have h100 : m.semantic_similarity * 100 ≤ 100 := by nlinarith
        have hle := pyRound1_le_100 h100
        exact pyIntTrunc_le (pyRound1_nonneg (by positivity)) (by exact_mod_cast hle)
  · intro r hr hid
    rcases rule_post_rows st jid r hr with h | ⟨_, _, _, m, hm, hemp, hsc⟩
    · exact Or.inl h
    · rcases rule_result_scores st jid m hm with ⟨q, h20, h100, hscore⟩
      refine Or.inr ⟨m, hm, hemp, ⟨q, h20, h100, hscore⟩, hsc, ?_, ?_⟩
      · rw [hsc, hscore]
        exact pyIntTrunc_nonneg (pyRound1_nonneg (by linarith))
      · rw [hsc, hscore]
        exact pyIntTrunc_le (pyRound1_nonneg (by linarith))
          (by exact_mod_cast pyRound1_le_100 h100)

/-- C8, witness for the amended theorem: the semantic half at the
0.675-similarity instance (stored 67), and the rule-based half at the §8
example state, where candidate A's 67.5 is persisted as 67 by
`_store_matches`. -/
theorem C8_amended_witness :
    (∃ m ∈ (trigger_job_matching fit0675 stScore "J").2.1,
      ({ job_id := "J", employee_id := "E", score := 67, skills_match := [],
         method := "advanced_semantic_tfidf_lsa", shortlisted := false } : MatchRow).employee_id
        = m.employee_id ∧
      m.score = pyRound1 (m.semantic_similarity * 100) ∧
      ({ job_id := "J", employee_id := "E", score := 67, skills_match := [],
         method := "advanced_semantic_tfidf_lsa", shortlisted := false } : MatchRow).score
        = pyIntTrunc m.score ∧
      (0 ≤ m.semantic_similarity → m.semantic_similarity ≤ 1 →
        0 ≤ ({ job_id := "J", employee_id := "E", score := 67, skills_match := [],
               method := "advanced_semantic_tfidf_lsa", shortlisted := false } : MatchRow).score ∧
        ({ job_id := "J", employee_id := "E", score := 67, skills_match := [],
           method := "advanced_semantic_tfidf_lsa", shortlisted := false } : MatchRow).score ≤ 100)) ∧
    (({ job_id := "J1", employee_id := "A", score := 67,
        skills_match := ["python", "fastapi", "aws"],
        method := "industry_standard", shortlisted := false } : MatchRow) ∈ stExample.job_matches ∨
      ∃ m ∈ (calculate_matches_for_job stExample "J1").1,
        ({ job_id := "J1", employee_id := "A", score := 67,
           skills_match := ["python", "fastapi", "aws"],
           method := "industry_standard", shortlisted := false } : MatchRow).employee_id
          = m.employee_id ∧
        (∃ q : ℚ, (20 : ℚ) ≤ q ∧ q ≤ 100 ∧ m.score = pyRound1 q) ∧
        ({ job_id := "J1", employee_id := "A", score := 67,
           skills_match := ["python", "fastapi", "aws"],
           method := "industry_standard", shortlisted := false } : MatchRow).score
          = pyIntTrunc m.score ∧
        (0 ≤ ({ job_id := "J1", employee_id := "A", score := 67,
                skills_match := ["python", "fastapi", "aws"],
                method := "industry_standard", shortlisted := false } : MatchRow).score ∧
          ({ job_id := "J1", employee_id := "A", score := 67,
             skills_match := ["python", "fastapi", "aws"],
             method := "industry_standard", shortlisted := false } : MatchRow).score ≤ 100)) :=
  ⟨(C8_amended fit0675 stScore "J").1 _ (by with_unfolding_all decide) rfl,
   (C8_amended fitHalf stExample "J1").2 _ (by with_unfolding_all decide) rfl⟩

/-! ## Claim C9 — opt-out exclusion -/

/-- C9: a candidate with `visibility_opt_out = True` is filtered out of both
eligibility queries, so no returned match and no freshly persisted row of the
triggered job can reference one: every such match resolves to an employee
whose opt-out flag is false. -/
theorem C9_optout_exclusion (fit : SemOracle) (st : DBState) (jid : String) :
    (∀ r ∈ (trigger_job_matching fit st jid).2.2.job_matches, r.job_id = jid →
      ∃ e ∈ st.employees, r.employee_id = e.id ∧ e.visibility_opt_out = false) ∧
    (∀ m ∈ (trigger_job_matching fit st jid).2.1,
      ∃ e ∈ st.employees, m.employee_id = e.id ∧ e.visibility_opt_out = false) ∧
    (∀ m ∈ (calculate_matches_for_job st jid).1,
      ∃ e ∈ st.employees, m.employee_id = e.id ∧ e.visibility_opt_out = false) := by
  refine ⟨?_, ?_, ?_⟩
  · intro r hr hid
    rcases trigger_post_rows fit st jid r hr with ⟨_, hne⟩ | ⟨_, _, _, _, m, hm, hemp, _⟩
    · exact absurd hid hne
    · rcases trigger_result_rows fit st jid m hm with ⟨e, he, hid2, _, _⟩
      rcases mem_semanticEligible he with ⟨hmem, _, hopt⟩
      exact ⟨e, hmem, hemp.trans hid2, hopt⟩
  · intro m hm
    rcases trigger_result_rows fit st jid m hm with ⟨e, he, hid2, _, _⟩
    rcases mem_semanticEligible he with ⟨hmem, _, hopt⟩
    exact ⟨e, hmem, hid2, hopt⟩
  · intro m hm
    rcases rule_result_rows st jid m hm with ⟨e, he, hid2⟩
    rcases mem_ruleEligible he with ⟨hmem, _, hopt⟩
    exact ⟨e, hmem, hid2, hopt⟩

/-- C9, witness at the concrete one-candidate state. -/
theorem C9_witness :
    ∃ e ∈ stShort.employees,
      ({ employee_id := "E", score := 50, semantic_similarity := 1/2 } : SemMatch).employee_id
        = e.id ∧ e.visibility_opt_out = false :=
  (C9_optout_exclusion fitHalf stShort "J").2.1 _ (by with_unfolding_all decide)

/-! ## Claim C10 — role restriction of the two paths -/

/-- C10: every match the rule-based path returns (and every fresh row it
persists) comes from an employee with role exactly "employee", while the
semantic path's eligibility additionally admits role "manager" (and nothing
else). -/
theorem C10_role_restriction (st : DBState) (jid : String) :
    (∀ m ∈ (calculate_matches_for_job st jid).1,
      ∃ e ∈ st.employees, m.employee_id = e.id ∧ e.role = "employee") ∧
    (∀ e ∈ ruleEligible st, e.role = "employee") ∧
    (∀ r ∈ (calculate_matches_for_job st jid).2.job_matches, r.job_id = jid →
      (∃ m ∈ (calculate_matches_for_job st jid).1, r.employee_id = m.employee_id) ∨
        r ∈ st.job_matches) ∧
    (∀ e ∈ st.employees, e.role = "manager" → e.visibility_opt_out = false →
      e ∈ semanticEligible st) ∧
    (∀ e ∈ semanticEligible st, e.role = "employee" ∨ e.role = "manager") := by
  refine ⟨?_, ?_, ?_, ?_, ?_⟩
  · intro m hm
    rcases rule_result_rows st jid m hm with ⟨e, he, hid⟩
    rcases mem_ruleEligible he with ⟨hmem, hrole, _⟩
    exact ⟨e, hmem, hid, hrole⟩
  · intro e he
    exact (mem_ruleEligible he).2.1
  · intro r hr hid
    rcases rule_post_rows st jid r hr with h | ⟨_, _, _, m, hm, hemp, _⟩
    · exact Or.inr h
    · exact Or.inl ⟨m, hm, hemp⟩
  · intro e he hrole hopt
    refine List.mem_filter.2 ⟨he, ?_⟩
    simp [hrole, hopt]
  · intro e he
    exact (mem_semanticEligible he).2.1

/-- C10, witness: the manager is semantically eligible. -/
theorem C10_witness : empMgr ∈ semanticEligible stMgr :=
  (C10_role_restriction stMgr "J").2.2.2.1 empMgr (by decide) rfl rfl
